import Mathlib

set_option maxRecDepth 2048

/-!
Verification of the irssi SASL core (src/irc/core/sasl.c).

Byte strings are modelled as `List Nat` (each element one byte / ASCII char).
`b64encode` / `b64decode` model GLib's `g_base64_encode` / `g_base64_decode`
(the decoder skips characters outside the base64 alphabet and never reports
an error; `=` has rank 0 and suppresses output bytes via the last-two-chars
check in `g_base64_decode_step`).
-/

/-- Bytes of a Lean string literal (ASCII). -/
def str2bytes (s : String) : List Nat := s.data.map Char.toNat

/-- `AUTHENTICATE_CHUNK_SIZE` from sasl.c. -/
def AUTHENTICATE_CHUNK_SIZE : Nat := 400

/-- `AUTHENTICATE_MAX_SIZE` from sasl.c. -/
def AUTHENTICATE_MAX_SIZE : Nat := 8192

/-- `SASL_TIMEOUT` from sasl.c (milliseconds). -/
def SASL_TIMEOUT : Nat := 20 * 1000

/-- GLib `base64_alphabet[i]`: the ASCII code of the i-th alphabet character
(`A-Za-z0-9+/`); indices ≥ 63 give `/`. -/
def b64char (i : Nat) : Nat :=
  if i < 26 then 65 + i
  else if i < 52 then 97 + (i - 26)
  else if i < 62 then 48 + (i - 52)
  else if i = 62 then 43
  else 47

/-- GLib `mime_base64_rank` table: rank of a character, 255 for characters
outside the accepted set.  `=` (61) is accepted with rank 0. -/
def b64rankD (c : Nat) : Nat :=
  if 65 ≤ c ∧ c ≤ 90 then c - 65
  else if 97 ≤ c ∧ c ≤ 122 then c - 71
  else if 48 ≤ c ∧ c ≤ 57 then c + 4
  else if c = 43 then 62
  else if c = 47 then 63
  else if c = 61 then 0
  else 255

/-- GLib `g_base64_encode` (no line breaks): standard base64 with `=` padding. -/
def b64encode : List Nat → List Nat
  | [] => []
  | [a] => [b64char (a / 4), b64char (a % 4 * 16), 61, 61]
  | [a, b] => [b64char (a / 4), b64char (a % 4 * 16 + b / 16), b64char (b % 16 * 4), 61]
  | a :: b :: c :: rest =>
      b64char (a / 4) :: b64char (a % 4 * 16 + b / 16) ::
      b64char (b % 16 * 4 + c / 64) :: b64char (c % 64) :: b64encode rest

/-- Core loop of GLib `g_base64_decode_step` after filtering to accepted
characters: every complete group of 4 accepted characters emits up to three
bytes; the 2nd (3rd) byte is suppressed when the group's 3rd (4th) character
is `=`; a trailing group of fewer than 4 characters emits nothing. -/
def decodeGroups : List Nat → List Nat
  | c1 :: c2 :: c3 :: c4 :: rest =>
      let w := b64rankD c1 * 262144 + b64rankD c2 * 4096 + b64rankD c3 * 64 + b64rankD c4
      (w / 65536 % 256) ::
        ((if c3 = 61 then [] else [w / 256 % 256]) ++
         (if c4 = 61 then [] else [w % 256]) ++ decodeGroups rest)
  | _ => []

/-- GLib `g_base64_decode`: skip non-accepted characters, then decode in
groups of 4.  Never fails. -/
def b64decode (s : List Nat) : List Nat :=
  decodeGroups (s.filter (fun c => b64rankD c != 255))

/-- Result of `sasl_reassemble_incoming`: `fail` = the C function returned
FALSE (server sent too much data); `more buf` = returned TRUE with
`*decoded == NULL` and `server->sasl_buffer` retained as `buf`;
`complete d` = returned TRUE with `*decoded = d` and the buffer freed. -/
inductive ReasmResult where
  | fail : ReasmResult
  | more : List Nat → ReasmResult
  | complete : List Nat → ReasmResult
deriving DecidableEq, Repr

/-- The `enc_req` string built at the top of `sasl_reassemble_incoming`:
prepend the existing buffer unless the fragment is exactly `"+"`, in which
case the buffered bytes alone are the payload. -/
def encReqOf : Option (List Nat) → List Nat → List Nat
  | some buf, fragment => if fragment = [43] then buf else buf ++ fragment
  | none, fragment => fragment

/-- `sasl_reassemble_incoming` from sasl.c, as a function of the current
`server->sasl_buffer` and the fragment. -/
def sasl_reassemble_incoming (sasl_buffer : Option (List Nat)) (fragment : List Nat) :
    ReasmResult :=
  let enc_req := encReqOf sasl_buffer fragment
  if enc_req.length > AUTHENTICATE_MAX_SIZE then .fail
  else if fragment.length = AUTHENTICATE_CHUNK_SIZE then .more enc_req
  else if enc_req = [43] then .complete []
  else .complete (b64decode enc_req)

/-- SASL mechanisms handled by sasl.c (`SASL_MECHANISM_PLAIN`,
`SASL_MECHANISM_EXTERNAL`). -/
inductive Mechanism where
  | plain : Mechanism
  | external : Mechanism
deriving DecidableEq, Repr

/-- The fields of `IRC_SERVER_CONNECT_REC` that sasl.c reads. -/
structure Conn where
  sasl_mechanism : Mechanism
  sasl_username : List Nat
  sasl_password : List Nat
deriving DecidableEq, Repr

/-- The fields of `IRC_SERVER_REC` that sasl.c reads or writes.
`sasl_timeout = 0` means no pending timer. -/
structure Server where
  connrec : Conn
  sasl_buffer : Option (List Nat)
  sasl_timeout : Nat
deriving DecidableEq, Repr

/-- Observable calls made by the sasl.c handlers, in order.
`sendNow` is `irc_send_cmd_now` (immediate send, bypasses the queue);
`sendCmdv` is `irc_send_cmdv` (normal queued send); `finishCap` is
`cap_finish_negotiation`; `emitSuccess` / `emitFailure` are the
`server sasl success` / `server sasl failure` signals; `timerRemove h` is
`g_source_remove(h)`; `timerAdd h d` is `g_timeout_add(d, sasl_timeout, …)`
returning handle `h`. -/
inductive Effect where
  | sendNow : List Nat → Effect
  | sendCmdv : List Nat → Effect
  | finishCap : Effect
  | emitSuccess : Effect
  | emitFailure : List Nat → Effect
  | timerRemove : Nat → Effect
  | timerAdd : Nat → Nat → Effect
deriving DecidableEq, Repr

/-- Bytes of an outbound `AUTHENTICATE <param>` line. -/
def authLine (param : List Nat) : List Nat := str2bytes "AUTHENTICATE " ++ param

/-- The `if (server->sasl_timeout != 0) { g_source_remove(...); server->sasl_timeout = 0; }`
idiom shared by the handlers. -/
def cancelTimer (s : Server) : Server × List Effect :=
  if s.sasl_timeout ≠ 0 then
    ({ s with sasl_timeout := 0 }, [.timerRemove s.sasl_timeout])
  else (s, [])

/-- `sasl_timeout` callback from sasl.c (timer fired). -/
def sasl_timeout_cb (s : Server) : Server × List Effect :=
  ({ s with sasl_timeout := 0 },
   [.sendNow (authLine (str2bytes "*")), .finishCap,
    .emitFailure (str2bytes "The authentication timed out")])

/-- The mechanism word sent by `sasl_start`. -/
def mechName : Mechanism → List Nat
  | .plain => str2bytes "PLAIN"
  | .external => str2bytes "EXTERNAL"

/-- `sasl_start` from sasl.c: handler of `server cap ack sasl`.  `handle` is
the (nonzero) timer handle returned by `g_timeout_add`. -/
def sasl_start_h (s : Server) (handle : Nat) : Server × List Effect :=
  ({ s with sasl_timeout := handle },
   [.sendNow (authLine (mechName s.connrec.sasl_mechanism)),
    .timerAdd handle SASL_TIMEOUT])

/-- One step of irssi's `event_get_param`: a leading `:` makes the rest of
the line the parameter; otherwise the parameter is the next
space-separated word. -/
def event_get_param (d : List Nat) : List Nat × List Nat :=
  if d.head? = some 58 then (d.drop 1, [])
  else (d.takeWhile (fun c => c != 32), ((d.dropWhile (fun c => c != 32)).drop 1))

/-- Second parameter of an event line, as extracted by
`event_get_params(data, 2, NULL, &error)`. -/
def event_get_params2 (data : List Nat) : List Nat :=
  (event_get_param (event_get_param data).2).1

/-- `sasl_fail` from sasl.c: handler of numerics 902/904/905/906. -/
def sasl_fail_h (s : Server) (data : List Nat) : Server × List Effect :=
  let c := cancelTimer s
  (c.1, c.2 ++ [.emitFailure (event_get_params2 data), .finishCap])

/-- `sasl_already` from sasl.c: handler of numeric 907. -/
def sasl_already_h (s : Server) : Server × List Effect :=
  let c := cancelTimer s
  (c.1, c.2 ++ [.emitSuccess, .finishCap])

/-- `sasl_success` from sasl.c: handler of numeric 903. -/
def sasl_success_h (s : Server) : Server × List Effect :=
  let c := cancelTimer s
  (c.1, c.2 ++ [.emitSuccess, .finishCap])

/-- Gas-indexed chunking loop of `sasl_send_response` (structural recursion
so the kernel can evaluate it; `sendLoop` supplies enough gas). -/
def sendLoopGo (enc : List Nat) : Nat → Nat → List (List Nat) × Nat
  | 0, offset => ([], offset)
  | gas + 1, offset =>
      if offset < enc.length then
        let tail := sendLoopGo enc gas (offset + AUTHENTICATE_CHUNK_SIZE)
        (((enc.drop offset).take AUTHENTICATE_CHUNK_SIZE) :: tail.1, tail.2)
      else ([], offset)

/-- The chunking loop of `sasl_send_response`: returns the list of chunks
(each `take 400` of the remaining encoding) and the final value of
`offset`. -/
def sendLoop (enc : List Nat) (offset : Nat) : List (List Nat) × Nat :=
  sendLoopGo enc (enc.length + 1) offset

/-- `sasl_send_response` from sasl.c.  `none` models a NULL `response`.
All sends in this function go through `irc_send_cmdv`. -/
def sasl_send_response_eff (response : Option (List Nat)) : List Effect :=
  match response with
  | none => [.sendCmdv (authLine (str2bytes "+"))]
  | some r =>
      let enc := b64encode r
      let loop := sendLoop enc 0
      loop.1.map (fun chunk => .sendCmdv (authLine chunk)) ++
        (if loop.2 = enc.length then [.sendCmdv (authLine (str2bytes "+"))] else [])

/-- `sasl_step_complete` from sasl.c: mechanism logic once a request is
fully reassembled.  The decoded server payload `data` is not inspected. -/
def sasl_step_complete (s : Server) (_data : List Nat) : List Effect :=
  match s.connrec.sasl_mechanism with
  | .plain =>
      sasl_send_response_eff (some
        (s.connrec.sasl_username ++ [0] ++ s.connrec.sasl_username ++ [0] ++
         s.connrec.sasl_password))
  | .external => sasl_send_response_eff none

/-- `sasl_step_fail` from sasl.c. -/
def sasl_step_fail_h (s : Server) : Server × List Effect :=
  ({ s with sasl_timeout := 0 },
   [.sendNow (authLine (str2bytes "*")), .finishCap,
    .emitFailure (str2bytes "The server sent an invalid payload")])

/-- `sasl_step` from sasl.c: handler of `event authenticate`.  `fresh` is
the timer handle a `g_timeout_add` call would return. -/
def sasl_step_h (s : Server) (data : List Nat) (fresh : Nat) : Server × List Effect :=
  let c := cancelTimer s
  match sasl_reassemble_incoming c.1.sasl_buffer data with
  | .fail =>
      let f := sasl_step_fail_h { c.1 with sasl_buffer := none }
      (f.1, c.2 ++ f.2)
  | .more buf =>
      ({ c.1 with sasl_buffer := some buf, sasl_timeout := fresh },
       c.2 ++ [.timerAdd fresh SASL_TIMEOUT])
  | .complete d =>
      let es := sasl_step_complete c.1 d
      ({ c.1 with sasl_buffer := none, sasl_timeout := fresh },
       c.2 ++ es ++ [.timerAdd fresh SASL_TIMEOUT])

/-- `sasl_disconnected` from sasl.c: cancels a pending timer; the buffer is
left untouched. -/
def sasl_disconnected_h (s : Server) : Server × List Effect := cancelTimer s

/-- The inbound events sasl.c registers handlers for (`sasl_init`). -/
inductive Event where
  | capAck : Event
  | authenticate : List Nat → Event
  | num902 : List Nat → Event
  | num903 : Event
  | num904 : List Nat → Event
  | num905 : List Nat → Event
  | num906 : List Nat → Event
  | num907 : Event
  | timerFired : Event
  | disconnected : Event
deriving DecidableEq, Repr

/-- Dispatch one delivered event to the sasl.c handler registered for it.
`timerFired` only does anything when a timer is actually pending. -/
def handleEvent (s : Server) (fresh : Nat) : Event → Server × List Effect
  | .capAck => sasl_start_h s fresh
  | .authenticate d => sasl_step_h s d fresh
  | .num902 d => sasl_fail_h s d
  | .num903 => sasl_success_h s
  | .num904 d => sasl_fail_h s d
  | .num905 d => sasl_fail_h s d
  | .num906 d => sasl_fail_h s d
  | .num907 => sasl_already_h s
  | .timerFired => if s.sasl_timeout ≠ 0 then sasl_timeout_cb s else (s, [])
  | .disconnected => sasl_disconnected_h s

/-- Deliver a sequence of events, threading the server state and supplying
fresh timer handles, collecting all effects in order. -/
def runEvents : Server → Nat → List Event → Server × List Effect
  | s, _, [] => (s, [])
  | s, fresh, e :: es =>
      let r := handleEvent s fresh e
      let rest := runEvents r.1 (fresh + 1) es
      (rest.1, r.2 ++ rest.2)

/-- Result of feeding a fragment sequence to the Reassembler.
`pending buf` = all fragments consumed, more expected; `done d rest` = a
payload `d` was completed with `rest` fragments unconsumed. -/
inductive FeedResult where
  | fail : FeedResult
  | pending : Option (List Nat) → FeedResult
  | done : List Nat → List (List Nat) → FeedResult
deriving DecidableEq, Repr

/-- Feed fragments one by one into `sasl_reassemble_incoming`. -/
def feedAll : Option (List Nat) → List (List Nat) → FeedResult
  | buf, [] => .pending buf
  | buf, f :: fs =>
      match sasl_reassemble_incoming buf f with
      | .fail => .fail
      | .more b => feedAll (some b) fs
      | .complete d => .done d fs

/-- The payload bytes of an outbound send effect. -/
def effLine : Effect → List Nat
  | .sendNow l => l
  | .sendCmdv l => l
  | _ => []

/-- The `AUTHENTICATE` parameters produced by the Response Encoder for
payload `p`, i.e. each outbound line minus the `AUTHENTICATE ` prefix. -/
def fragsOf (p : List Nat) : List (List Nat) :=
  (sasl_send_response_eff (some p)).map (fun e => (effLine e).drop 13)

/-- Gas-indexed specification-side chunk split (structural recursion;
`splitChunks` supplies enough gas). -/
def splitChunksGo : Nat → List Nat → List (List Nat)
  | 0, _ => []
  | _ + 1, [] => []
  | gas + 1, a :: t =>
      (a :: t).take AUTHENTICATE_CHUNK_SIZE ::
        splitChunksGo gas ((a :: t).drop AUTHENTICATE_CHUNK_SIZE)

/-- Specification-side chunk split: successive `take 400` pieces. -/
def splitChunks (l : List Nat) : List (List Nat) := splitChunksGo l.length l

/-- Specification-side strict RFC 4648 base64 validity: length a multiple
of 4, base64-alphabet body, `=` only as final padding of length ≤ 2. -/
def validBase64 (s : List Nat) : Bool :=
  let isAlpha : Nat → Bool := fun c =>
    (65 ≤ c && c ≤ 90) || (97 ≤ c && c ≤ 122) || (48 ≤ c && c ≤ 57) || c == 43 || c == 47
  let core := s.takeWhile isAlpha
  let pad := s.drop core.length
  s.length % 4 == 0 && (pad == [] || pad == [61] || pad == [61, 61])

/-- Predicate pickers for counting effects. -/
def isFinishCap : Effect → Bool
  | .finishCap => true
  | _ => false

def isSuccessE : Effect → Bool
  | .emitSuccess => true
  | _ => false

def isFailureE : Effect → Bool
  | .emitFailure _ => true
  | _ => false

def isSendNowE : Effect → Bool
  | .sendNow _ => true
  | _ => false

def isSendCmdvE : Effect → Bool
  | .sendCmdv _ => true
  | _ => false

/-- Number of `cap_finish_negotiation` calls in an effect list. -/
def countFC (l : List Effect) : Nat := l.countP isFinishCap

/-- Number of `server sasl success` emissions. -/
def countSucc (l : List Effect) : Nat := l.countP isSuccessE

/-- Number of `server sasl failure` emissions. -/
def countFail (l : List Effect) : Nat := l.countP isFailureE

/-- Number of immediate (`irc_send_cmd_now`) sends. -/
def countNow (l : List Effect) : Nat := l.countP isSendNowE

/-- Expected `(finish_cap, success, failure)` counts of handling one event,
per the code: every terminal-triggering event reports once, every other
event reports nothing; there is no terminal flag suppressing repeats. -/
def expectedOutcome (s : Server) : Event → Nat × Nat × Nat
  | .capAck => (0, 0, 0)
  | .authenticate d =>
      if (encReqOf s.sasl_buffer d).length > AUTHENTICATE_MAX_SIZE then (1, 0, 1) else (0, 0, 0)
  | .num902 _ => (1, 0, 1)
  | .num903 => (1, 1, 0)
  | .num904 _ => (1, 0, 1)
  | .num905 _ => (1, 0, 1)
  | .num906 _ => (1, 0, 1)
  | .num907 => (1, 1, 0)
  | .timerFired => if s.sasl_timeout ≠ 0 then (1, 0, 1) else (0, 0, 0)
  | .disconnected => (0, 0, 0)

/-- Buffer length of a server state (0 when no buffer). -/
def bufLen (s : Server) : Nat := (s.sasl_buffer.getD []).length

/-- Test fixture: a PLAIN session with username `alice`, password `hunter2`
(spec §8 scenario 1). -/
def aliceConn : Conn :=
  { sasl_mechanism := .plain
    sasl_username := str2bytes "alice"
    sasl_password := str2bytes "hunter2" }

/-- Test fixture: fresh server state for `aliceConn`. -/
def aliceServer : Server :=
  { connrec := aliceConn, sasl_buffer := none, sasl_timeout := 0 }

/-- Test fixture: server holding a one-byte reassembly buffer with a
pending timer (handle 5). -/
def bufServer : Server :=
  { connrec := aliceConn, sasl_buffer := some [65], sasl_timeout := 5 }

/-- Test fixture: server holding a full 8000-byte reassembly buffer (20
accumulated 400-byte chunks) with a pending timer (handle 5). -/
def bigBufServer : Server :=
  { connrec := aliceConn, sasl_buffer := some (List.replicate 8000 65), sasl_timeout := 5 }

/-! ### Base64 lemmas -/

/-- Ranks of alphabet characters recover the index. -/
theorem b64rank_char : ∀ i : Nat, i < 64 → b64rankD (b64char i) = i := by decide

/-- No alphabet character is `=`. -/
theorem b64char_ne_61 (i : Nat) : b64char i ≠ 61 := by
  unfold b64char
  split_ifs <;> omega

/-- Every alphabet character is accepted by the rank table. -/
theorem b64char_accepted (i : Nat) : b64rankD (b64char i) ≠ 255 := by
  unfold b64char b64rankD
  split_ifs <;> omega

/-- `=` is accepted with rank 0. -/
theorem b64rank_61 : b64rankD 61 = 0 := by decide

/-- Characters produced by the encoder are all accepted by the decoder. -/
theorem encode_mem_accepted : ∀ (p : List Nat) (c : Nat), c ∈ b64encode p → b64rankD c ≠ 255
  | [], c, h => by simp [b64encode] at h
  | [a], c, h => by
      simp only [b64encode, List.mem_cons, List.not_mem_nil, or_false] at h
      rcases h with h | h | h | h <;> subst h <;>
        first
        | exact b64char_accepted _
        | simp [b64rank_61]
  | [a, b], c, h => by
      simp only [b64encode, List.mem_cons, List.not_mem_nil, or_false] at h
      rcases h with h | h | h | h <;> subst h <;>
        first
        | exact b64char_accepted _
        | simp [b64rank_61]
  | a :: b :: d :: rest, c, h => by
      simp only [b64encode, List.mem_cons] at h
      rcases h with h | h | h | h | h
      · subst h; exact b64char_accepted _
      · subst h; exact b64char_accepted _
      · subst h; exact b64char_accepted _
      · subst h; exact b64char_accepted _
      · exact encode_mem_accepted rest c h

/-- Filtering the encoder output by acceptance keeps everything. -/
theorem encode_filter (p : List Nat) :
    (b64encode p).filter (fun c => b64rankD c != 255) = b64encode p := by
  apply List.filter_eq_self.mpr
  intro a ha
  simpa using encode_mem_accepted p a ha

/-- Decoding the groups of an encoding recovers the plaintext bytes. -/
theorem decodeGroups_encode : ∀ (p : List Nat), (∀ b ∈ p, b < 256) →
    decodeGroups (b64encode p) = p
  | [], _ => by simp [b64encode, decodeGroups]
  | [a], h => by
      have ha : a < 256 := h a (by simp)
      have h1 : a / 4 < 64 := by omega
      have h2 : a % 4 * 16 < 64 := by omega
      simp only [b64encode, decodeGroups, b64rank_char _ h1, b64rank_char _ h2, b64rank_61,
        if_pos rfl]
      simp
      omega
  | [a, b], h => by
      have ha : a < 256 := h a (by simp)
      have hb : b < 256 := h b (by simp)
      have h1 : a / 4 < 64 := by omega
      have h2 : a % 4 * 16 + b / 16 < 64 := by omega
      have h3 : b % 16 * 4 < 64 := by omega
      simp only [b64encode, decodeGroups, b64rank_char _ h1, b64rank_char _ h2,
        b64rank_char _ h3, b64rank_61, if_neg (b64char_ne_61 _), if_pos rfl]
      simp
      constructor
      · omega
      · omega
  | a :: b :: c :: rest, h => by
      have ha : a < 256 := h a (by simp)
      have hb : b < 256 := h b (by simp)
      have hc : c < 256 := h c (by simp)
      have h1 : a / 4 < 64 := by omega
      have h2 : a % 4 * 16 + b / 16 < 64 := by omega
      have h3 : b % 16 * 4 + c / 64 < 64 := by omega
      have h4 : c % 64 < 64 := by omega
      have ih := decodeGroups_encode rest (fun x hx => h x (by simp [hx]))
      simp only [b64encode, decodeGroups, b64rank_char _ h1, b64rank_char _ h2,
        b64rank_char _ h3, b64rank_char _ h4, if_neg (b64char_ne_61 _)]
      simp [ih]
      refine ⟨by omega, by omega, by omega⟩

/-- GLib decode inverts GLib encode on byte strings. -/
theorem b64_decode_encode (p : List Nat) (h : ∀ b ∈ p, b < 256) :
    b64decode (b64encode p) = p := by
  unfold b64decode
  rw [encode_filter, decodeGroups_encode p h]

/-- The encoding length is a multiple of 4. -/
theorem encode_len_mod4 : ∀ p : List Nat, (b64encode p).length % 4 = 0
  | [] => by simp [b64encode]
  | [a] => by simp [b64encode]
  | [a, b] => by simp [b64encode]
  | a :: b :: c :: rest => by
      have ih := encode_len_mod4 rest
      simp only [b64encode, List.length_cons]
      omega

/-- The encoding of a nonempty payload is nonempty. -/
theorem encode_pos : ∀ p : List Nat, p ≠ [] → 0 < (b64encode p).length
  | [], h => absurd rfl h
  | [a], _ => by simp [b64encode]
  | [a, b], _ => by simp [b64encode]
  | a :: b :: c :: rest, _ => by simp [b64encode]

/-- The encoding of the empty payload is empty. -/
theorem encode_nil : b64encode [] = [] := rfl

/-! ### Chunking lemmas -/

/-- `sendLoopGo` does not depend on the gas once it is sufficient. -/
theorem sendLoopGo_fuel (enc : List Nat) :
    ∀ g1 g2 off, enc.length ≤ off + 400 * g1 → enc.length ≤ off + 400 * g2 →
      sendLoopGo enc g1 off = sendLoopGo enc g2 off := by
  intro g1
  induction g1 with
  | zero =>
      intro g2 off h1 h2
      cases g2 with
      | zero => rfl
      | succ g =>
          simp only [sendLoopGo]
          rw [if_neg (by omega)]
  | succ g ih =>
      intro g2 off h1 h2
      cases g2 with
      | zero =>
          simp only [sendLoopGo]
          rw [if_neg (by omega)]
      | succ g' =>
          simp only [sendLoopGo, AUTHENTICATE_CHUNK_SIZE]
          by_cases h : off < enc.length
          · rw [if_pos h, if_pos h, ih g' (off + 400) (by omega) (by omega)]
          · rw [if_neg h, if_neg h]

/-- One-step unfolding of `sendLoop`, mirroring the C `for` loop. -/
theorem sendLoop_eq (enc : List Nat) (off : Nat) :
    sendLoop enc off =
      if off < enc.length then
        (((enc.drop off).take 400) :: (sendLoop enc (off + 400)).1,
         (sendLoop enc (off + 400)).2)
      else ([], off) := by
  unfold sendLoop
  conv_lhs => rw [sendLoopGo]
  simp only [AUTHENTICATE_CHUNK_SIZE]
  by_cases h : off < enc.length
  · rw [if_pos h, if_pos h]
    rw [sendLoopGo_fuel enc enc.length (enc.length + 1) (off + 400) (by omega) (by omega)]
  · rw [if_neg h, if_neg h]

/-- `splitChunksGo` does not depend on the gas once it is sufficient. -/
theorem splitChunksGo_fuel :
    ∀ g1 g2 (l : List Nat), l.length ≤ g1 → l.length ≤ g2 →
      splitChunksGo g1 l = splitChunksGo g2 l := by
  intro g1
  induction g1 with
  | zero =>
      intro g2 l h1 h2
      have : l = [] := by
        cases l with
        | nil => rfl
        | cons a t => simp at h1
      subst this
      cases g2 <;> rfl
  | succ g ih =>
      intro g2 l h1 h2
      cases l with
      | nil => cases g2 <;> rfl
      | cons a t =>
          cases g2 with
          | zero => simp at h2
          | succ g' =>
              simp only [List.length_cons] at h1 h2
              simp only [splitChunksGo, AUTHENTICATE_CHUNK_SIZE]
              rw [ih g' ((a :: t).drop 400) (by simp; omega) (by simp; omega)]

/-- One-step unfolding of `splitChunks`. -/
theorem splitChunks_eq (l : List Nat) :
    splitChunks l =
      if l = [] then [] else l.take 400 :: splitChunks (l.drop 400) := by
  unfold splitChunks
  cases l with
  | nil => rfl
  | cons a t =>
      rw [if_neg (by simp)]
      simp only [splitChunksGo, List.length_cons, AUTHENTICATE_CHUNK_SIZE]
      rw [splitChunksGo_fuel t.length ((a :: t).drop 400).length ((a :: t).drop 400)
        (by simp) (le_refl _)]

/-- The chunks sent by the loop are exactly the spec-side chunk split of the
remaining encoding. -/
theorem sendLoop_chunks (enc : List Nat) (off : Nat) :
    (sendLoop enc off).1 = splitChunks (enc.drop off) := by
  rw [sendLoop_eq]
  by_cases h : off < enc.length
  · rw [if_pos h]
    rw [splitChunks_eq]
    rw [if_neg (by
      intro hh
      have := congrArg List.length hh
      simp at this
      omega)]
    simp only
    rw [sendLoop_chunks enc (off + 400)]
    rw [List.drop_drop]
  · rw [if_neg h]
    rw [splitChunks_eq]
    rw [if_pos (List.drop_eq_nil_of_le (by omega))]
termination_by enc.length - off
decreasing_by omega

/-- Final `offset` of the loop: it equals the encoding length exactly when
the length is a multiple of the chunk size. -/
theorem sendLoop_end (enc : List Nat) (off : Nat) :
    (sendLoop enc off).2 = enc.length ↔
      off = enc.length ∨ (off < enc.length ∧ (enc.length - off) % 400 = 0) := by
  rw [sendLoop_eq]
  by_cases h : off < enc.length
  · rw [if_pos h]
    simp only
    rw [sendLoop_end enc (off + 400)]
    omega
  · rw [if_neg h]
    simp only
    omega
termination_by enc.length - off
decreasing_by omega

/-- The `+` terminator condition `offset == enc_len` holds iff the encoding
length is a multiple of 400 (including length 0). -/
theorem terminator_iff (enc : List Nat) :
    (sendLoop enc 0).2 = enc.length ↔ enc.length % 400 = 0 := by
  rw [sendLoop_end]
  omega

/-- Concatenating the spec-side chunks recovers the input. -/
theorem splitChunks_join (l : List Nat) :
    (splitChunks l).foldr (fun a b => a ++ b) [] = l := by
  rw [splitChunks_eq]
  by_cases h : l = []
  · rw [if_pos h, h]
    rfl
  · rw [if_neg h]
    simp only [List.foldr_cons]
    rw [splitChunks_join (l.drop 400)]
    exact List.take_append_drop 400 l
termination_by l.length
decreasing_by
  simp
  have : 0 < l.length := List.length_pos.mpr h
  omega

/-- Every spec-side chunk has length between 1 and 400. -/
theorem splitChunks_len (l : List Nat) :
    ∀ c ∈ splitChunks l, 1 ≤ c.length ∧ c.length ≤ 400 := by
  rw [splitChunks_eq]
  by_cases h : l = []
  · rw [if_pos h]
    intro c hc
    simp at hc
  · rw [if_neg h]
    intro c hc
    rcases List.mem_cons.mp hc with hc | hc
    · subst hc
      have : 0 < l.length := List.length_pos.mpr h
      constructor
      · simp
        omega
      · simp
    · exact splitChunks_len (l.drop 400) c hc
termination_by l.length
decreasing_by
  simp
  have : 0 < l.length := List.length_pos.mpr h
  omega

/-- A nonempty input splits into at least one chunk. -/
theorem splitChunks_ne_nil (l : List Nat) (h : l ≠ []) : splitChunks l ≠ [] := by
  rw [splitChunks_eq, if_neg h]
  simp

/-- Every spec-side chunk except the last has length exactly 400. -/
theorem splitChunks_dropLast (l : List Nat) :
    ∀ c ∈ (splitChunks l).dropLast, c.length = 400 := by
  rw [splitChunks_eq]
  by_cases h : l = []
  · rw [if_pos h]
    intro c hc
    simp at hc
  · rw [if_neg h]
    by_cases h4 : l.drop 400 = []
    · rw [h4, splitChunks_eq, if_pos rfl]
      intro c hc
      simp at hc
    · rw [List.dropLast_cons_of_ne_nil (splitChunks_ne_nil _ h4)]
      intro c hc
      rcases List.mem_cons.mp hc with hc | hc
      · subst hc
        have : 400 < l.length := by
          by_contra hle
          exact h4 (List.drop_eq_nil_of_le (by omega))
        simp
        omega
      · exact splitChunks_dropLast (l.drop 400) c hc
termination_by l.length
decreasing_by
  simp
  have : 0 < l.length := List.length_pos.mpr h
  omega

/-! ### Reassembler lemmas -/

/-- For a fragment other than `"+"`, `enc_req` is buffer ++ fragment. -/
theorem encReq_getD (b : Option (List Nat)) (f : List Nat) (hf : f ≠ [43]) :
    encReqOf b f = b.getD [] ++ f := by
  cases b with
  | none => simp [encReqOf]
  | some bb => simp [encReqOf, hf]

/-- The reassembler fails exactly when `enc_req` exceeds the size limit. -/
theorem reassemble_fail_iff (b : Option (List Nat)) (f : List Nat) :
    sasl_reassemble_incoming b f = .fail ↔ (encReqOf b f).length > 8192 := by
  simp only [sasl_reassemble_incoming, AUTHENTICATE_MAX_SIZE, AUTHENTICATE_CHUNK_SIZE]
  split_ifs with h1 h2 h3 <;> simp_all

/-- A within-limit fragment that is not exactly 400 bytes completes the
request, and the decoded payload is always the GLib decode of `enc_req`
(for the `"+"`-only buffer this coincides with the empty payload). -/
theorem reassemble_complete (b : Option (List Nat)) (f : List Nat)
    (h1 : ¬(encReqOf b f).length > 8192) (h2 : f.length ≠ 400) :
    sasl_reassemble_incoming b f = .complete (b64decode (encReqOf b f)) := by
  simp only [sasl_reassemble_incoming, AUTHENTICATE_MAX_SIZE, AUTHENTICATE_CHUNK_SIZE]
  rw [if_neg h1, if_neg h2]
  by_cases h3 : encReqOf b f = [43]
  · rw [if_pos h3, h3]
    have hd : b64decode [43] = [] := by decide
    rw [hd]
  · rw [if_neg h3]

/-- A within-limit fragment of exactly 400 bytes is retained as a buffer. -/
theorem reassemble_more (b : Option (List Nat)) (f : List Nat)
    (h1 : ¬(encReqOf b f).length > 8192) (h2 : f.length = 400) :
    sasl_reassemble_incoming b f = .more (encReqOf b f) := by
  simp only [sasl_reassemble_incoming, AUTHENTICATE_MAX_SIZE, AUTHENTICATE_CHUNK_SIZE]
  rw [if_neg h1, if_pos h2]

/-- Whatever buffer the reassembler retains is `enc_req` and within limit,
and only a 400-byte fragment is retained. -/
theorem reassemble_more_inv (b : Option (List Nat)) (f : List Nat) (x : List Nat)
    (h : sasl_reassemble_incoming b f = .more x) :
    x = encReqOf b f ∧ x.length ≤ 8192 ∧ f.length = 400 := by
  simp only [sasl_reassemble_incoming, AUTHENTICATE_MAX_SIZE, AUTHENTICATE_CHUNK_SIZE] at h
  split_ifs at h with h1 h2 h3
  all_goals simp_all

/-- A completed request implies `enc_req` was within limit. -/
theorem reassemble_complete_inv (b : Option (List Nat)) (f : List Nat) (d : List Nat)
    (h : sasl_reassemble_incoming b f = .complete d) :
    (encReqOf b f).length ≤ 8192 := by
  simp only [sasl_reassemble_incoming, AUTHENTICATE_MAX_SIZE, AUTHENTICATE_CHUNK_SIZE] at h
  split_ifs at h with h1 h2 h3 <;> simp_all

/-- Feeding `"+"` with an existing buffer of plausible size completes the
buffered payload. -/
theorem reassemble_plus_term (bb : List Nat) (hle : bb.length ≤ 8192)
    (hne : bb.length ≠ 1) :
    sasl_reassemble_incoming (some bb) [43] = .complete (b64decode bb) := by
  have henc : encReqOf (some bb) [43] = bb := by simp [encReqOf]
  simp only [sasl_reassemble_incoming, henc, AUTHENTICATE_MAX_SIZE, AUTHENTICATE_CHUNK_SIZE]
  rw [if_neg (by omega), if_neg (by simp), if_neg (by intro hh; rw [hh] at hne; simp at hne)]

/-! ### Feed (round-trip) lemmas -/

/-- Feeding the spec-side chunks of `rest` (final chunk shorter than 400)
onto a buffer completes with the decode of buffer ++ rest. -/
theorem feedSplitAux (rest : List Nat) (b : Option (List Nat))
    (hlen : (b.getD []).length + rest.length ≤ 8192)
    (h0 : rest.length % 400 ≠ 0) (h1 : rest.length % 400 ≠ 1) :
    feedAll b (splitChunks rest) = .done (b64decode (b.getD [] ++ rest)) [] := by
  have hne : rest ≠ [] := by
    intro hh
    rw [hh] at h0
    simp at h0
  rw [splitChunks_eq, if_neg hne]
  by_cases hsmall : rest.length ≤ 400
  · have hlt : rest.length < 400 := by omega
    have htake : rest.take 400 = rest := List.take_of_length_le (by omega)
    have hdrop : rest.drop 400 = [] := List.drop_eq_nil_of_le (by omega)
    rw [htake, hdrop, splitChunks_eq, if_pos rfl]
    have hf43 : rest ≠ [43] := by
      intro hh
      rw [hh] at h1
      simp at h1
    have henc : encReqOf b rest = b.getD [] ++ rest := encReq_getD b rest hf43
    have hcomp := reassemble_complete b rest
      (by rw [henc]; simp only [List.length_append]; omega) (by omega)
    simp [feedAll, hcomp, henc]
  · have htake : (rest.take 400).length = 400 := by simp; omega
    have hf43 : rest.take 400 ≠ [43] := by
      intro hh
      rw [hh] at htake
      simp at htake
    have henc : encReqOf b (rest.take 400) = b.getD [] ++ rest.take 400 :=
      encReq_getD _ _ hf43
    have hmore := reassemble_more b (rest.take 400)
      (by rw [henc]; simp only [List.length_append, htake]; omega) htake
    simp only [feedAll, hmore]
    rw [henc]
    have hrec := feedSplitAux (rest.drop 400) (some (b.getD [] ++ rest.take 400))
      (by simp only [Option.getD_some, List.length_append, htake, List.length_drop]; omega)
      (by simp only [List.length_drop]; omega)
      (by simp only [List.length_drop]; omega)
    rw [hrec]
    simp only [Option.getD_some]
    rw [List.append_assoc, List.take_append_drop]
termination_by rest.length
decreasing_by simp; omega

/-- Feeding the spec-side chunks of `rest` (length a positive multiple of
400) followed by the `"+"` terminator completes with the decode of
buffer ++ rest. -/
theorem feedSplitPlus (rest : List Nat) (b : Option (List Nat))
    (hlen : (b.getD []).length + rest.length ≤ 8192)
    (h0 : rest.length % 400 = 0) (hne : rest ≠ []) :
    feedAll b (splitChunks rest ++ [[43]]) = .done (b64decode (b.getD [] ++ rest)) [] := by
  have hpos : 0 < rest.length := List.length_pos.mpr hne
  have hge : 400 ≤ rest.length := by omega
  rw [splitChunks_eq, if_neg hne]
  have htake : (rest.take 400).length = 400 := by simp; omega
  have hf43 : rest.take 400 ≠ [43] := by
    intro hh
    rw [hh] at htake
    simp at htake
  have henc : encReqOf b (rest.take 400) = b.getD [] ++ rest.take 400 :=
    encReq_getD _ _ hf43
  have hmore := reassemble_more b (rest.take 400)
    (by rw [henc]; simp only [List.length_append, htake]; omega) htake
  by_cases hlast : rest.length ≤ 400
  · have h400 : rest.length = 400 := by omega
    have htk : rest.take 400 = rest := List.take_of_length_le (by omega)
    have hdrop : rest.drop 400 = [] := List.drop_eq_nil_of_le (by omega)
    rw [hdrop, splitChunks_eq, if_pos rfl, htk]
    rw [henc, htk] at hmore
    simp only [List.cons_append, List.nil_append, feedAll, hmore]
    have hterm := reassemble_plus_term (b.getD [] ++ rest)
      (by simp only [List.length_append]; omega)
      (by simp only [List.length_append]; omega)
    simp [feedAll, hterm]
  · rw [List.cons_append]
    simp only [feedAll, hmore]
    rw [henc]
    have hrec := feedSplitPlus (rest.drop 400) (some (b.getD [] ++ rest.take 400))
      (by simp only [Option.getD_some, List.length_append, htake, List.length_drop]; omega)
      (by simp only [List.length_drop]; omega)
      (by
        intro hh
        have := congrArg List.length hh
        simp only [List.length_drop, List.length_nil] at this
        omega)
    rw [hrec]
    simp only [Option.getD_some]
    rw [List.append_assoc, List.take_append_drop]
termination_by rest.length
decreasing_by simp; omega

/-! ### Encoder output lemmas -/

/-- Stripping the `AUTHENTICATE ` prefix recovers the parameter. -/
theorem authLine_drop (x : List Nat) : (authLine x).drop 13 = x := by
  have h : (13 : Nat) = (str2bytes "AUTHENTICATE ").length := by decide
  rw [authLine, h, List.drop_left]

/-- The fragments produced by the Response Encoder are the chunk split of
the encoding, plus a `+` terminator exactly when the encoded length is a
multiple of 400. -/
theorem fragsOf_eq (p : List Nat) :
    fragsOf p = splitChunks (b64encode p) ++
      (if (b64encode p).length % 400 = 0 then [[43]] else []) := by
  unfold fragsOf sasl_send_response_eff
  simp only [List.map_append, List.map_map]
  congr 1
  · have hc : ((fun e => (effLine e).drop 13) ∘ fun chunk => Effect.sendCmdv (authLine chunk)) =
        fun chunk : List Nat => chunk := by
      funext c
      simp [effLine, authLine_drop]
    rw [hc]
    simp only [List.map_id']
    rw [sendLoop_chunks, List.drop_zero]
  · by_cases hm : (b64encode p).length % 400 = 0
    · rw [if_pos hm, if_pos ((terminator_iff (b64encode p)).mpr hm)]
      simp only [List.map_cons, List.map_nil, effLine]
      rw [authLine_drop]
      congr 1
    · rw [if_neg hm, if_neg (fun hh => hm ((terminator_iff (b64encode p)).mp hh))]
      simp

/-- Every effect of `sasl_send_response` is an `irc_send_cmdv` send. -/
theorem sendResponse_mem (r : Option (List Nat)) (e : Effect)
    (h : e ∈ sasl_send_response_eff r) : isSendCmdvE e = true := by
  cases r with
  | none =>
      simp only [sasl_send_response_eff, List.mem_singleton] at h
      subst h
      rfl
  | some rr =>
      simp only [sasl_send_response_eff, List.mem_append, List.mem_map] at h
      rcases h with ⟨c, _, rfl⟩ | h
      · rfl
      · split_ifs at h
        · simp only [List.mem_singleton] at h
          subst h
          rfl
        · simp at h

/-- `sasl_send_response` never finishes CAP, emits outcomes, or sends on
the immediate path. -/
theorem sendResponse_counts (r : Option (List Nat)) :
    countFC (sasl_send_response_eff r) = 0 ∧ countSucc (sasl_send_response_eff r) = 0 ∧
      countFail (sasl_send_response_eff r) = 0 ∧ countNow (sasl_send_response_eff r) = 0 := by
  refine ⟨?_, ?_, ?_, ?_⟩ <;>
    first
    | exact List.countP_eq_zero.mpr (fun e he => by
        have := sendResponse_mem r e he
        cases e <;> simp_all [isSendCmdvE, isFinishCap, isSuccessE, isFailureE, isSendNowE])

/-! ### Claim theorems -/

/-- Claim C3 (confirmed): for every byte string `p` whose base64 encoding
has length at most `MAX_ENCODED = 8192`, feeding the `AUTHENTICATE`
fragments produced by the Response Encoder for `p` into the Reassembler,
starting from an empty buffer, yields exactly the decoded payload `p`:
the feed never fails and completes exactly at the last fragment. -/
theorem sasl_c3_roundtrip (p : List Nat) (hb : ∀ b ∈ p, b < 256)
    (hlen : (b64encode p).length ≤ 8192) :
    feedAll none (fragsOf p) = .done p [] := by
  rw [fragsOf_eq]
  by_cases hp : p = []
  · subst hp
    decide
  · have hmod4 := encode_len_mod4 p
    by_cases hm : (b64encode p).length % 400 = 0
    · rw [if_pos hm]
      have hrec := feedSplitPlus (b64encode p) none (by simpa using hlen) hm
        (by
          intro hh
          have := encode_pos p hp
          rw [hh] at this
          simp at this)
      rw [hrec]
      simp only [Option.getD_none, List.nil_append]
      rw [b64_decode_encode p hb]
    · rw [if_neg hm]
      simp only [List.append_nil]
      have hrec := feedSplitAux (b64encode p) none (by simpa using hlen) hm (by omega)
      rw [hrec]
      simp only [Option.getD_none, List.nil_append]
      rw [b64_decode_encode p hb]

/-- Witness for C3 at the concrete payload `[1, 2, 3]`. -/
theorem sasl_c3_roundtrip_witness :
    feedAll none (fragsOf [1, 2, 3]) = .done [1, 2, 3] [] :=
  sasl_c3_roundtrip [1, 2, 3] (by decide) (by decide)

/-- Claim C7 (confirmed): for every payload `p`, the Response Encoder
base64-encodes `p` and sends the encoding as successive
`AUTHENTICATE <chunk>` lines whose chunks concatenate back to the
encoding, each chunk has length 1..400, every chunk except the last has
length exactly 400, and an additional `AUTHENTICATE +` terminator is sent
iff the encoded length is a multiple of 400 (including length 0). -/
theorem sasl_c7_encoder (p : List Nat) :
    sasl_send_response_eff (some p) =
      (splitChunks (b64encode p)).map (fun c => Effect.sendCmdv (authLine c)) ++
        (if (b64encode p).length % 400 = 0 then [Effect.sendCmdv (authLine [43])] else []) ∧
    (splitChunks (b64encode p)).foldr (fun a b => a ++ b) [] = b64encode p ∧
    (splitChunks (b64encode p)).all
      (fun c => decide (1 ≤ c.length) && decide (c.length ≤ 400)) = true ∧
    (splitChunks (b64encode p)).dropLast.all (fun c => c.length == 400) = true := by
  refine ⟨?_, splitChunks_join _, ?_, ?_⟩
  · simp only [sasl_send_response_eff]
    rw [sendLoop_chunks, List.drop_zero]
    congr 1
    by_cases hm : (b64encode p).length % 400 = 0
    · rw [if_pos hm, if_pos ((terminator_iff (b64encode p)).mpr hm)]
      have h43 : str2bytes "+" = [43] := by decide
      rw [h43]
    · rw [if_neg hm, if_neg (fun hh => hm ((terminator_iff (b64encode p)).mp hh))]
  · refine List.all_eq_true.mpr (fun c hc => ?_)
    have := splitChunks_len (b64encode p) c hc
    simp only [Bool.and_eq_true, decide_eq_true_eq]
    exact this
  · refine List.all_eq_true.mpr (fun c hc => ?_)
    have := splitChunks_dropLast (b64encode p) c hc
    simpa using this

/-- Claim C4 (counterexample): not every outbound `AUTHENTICATE` line uses
the immediate-send path.  The Response Encoder's `AUTHENTICATE +` (sent
for an EXTERNAL response, and equally for chunked responses) goes through
`irc_send_cmdv`, the normal queued path: the effect list contains one
`AUTHENTICATE` line and zero immediate sends. -/
theorem sasl_c4_counterexample :
    sasl_send_response_eff none = [Effect.sendCmdv (authLine (str2bytes "+"))] ∧
    countNow (sasl_send_response_eff none) = 0 ∧
    countNow (sasl_step_complete aliceServer []) = 0 ∧
    (sasl_step_complete aliceServer []).length = 1 := by
  refine ⟨rfl, by decide, by decide, by decide⟩

/-- Claim C4 (amended): the initial `AUTHENTICATE PLAIN` / `AUTHENTICATE
EXTERNAL` line and the `AUTHENTICATE *` abort lines (timeout and
reassembly failure) are written via the immediate-send path
(`irc_send_cmd_now`); every line produced by `sasl_send_response` — the
base64 response chunks and the `AUTHENTICATE +` lines — is written via
`irc_send_cmdv`, the normal queued path. -/
theorem sasl_c4_amended :
    (∀ (s : Server) (h : Nat), (sasl_start_h s h).2 =
        [Effect.sendNow (authLine (mechName s.connrec.sasl_mechanism)),
         Effect.timerAdd h SASL_TIMEOUT]) ∧
    (∀ s : Server, (sasl_timeout_cb s).2 =
        [Effect.sendNow (authLine (str2bytes "*")), Effect.finishCap,
         Effect.emitFailure (str2bytes "The authentication timed out")]) ∧
    (∀ s : Server, (sasl_step_fail_h s).2 =
        [Effect.sendNow (authLine (str2bytes "*")), Effect.finishCap,
         Effect.emitFailure (str2bytes "The server sent an invalid payload")]) ∧
    (∀ r : Option (List Nat), (sasl_send_response_eff r).all isSendCmdvE = true) := by
  refine ⟨fun s h => rfl, fun s => rfl, fun s => rfl, fun r => ?_⟩
  exact List.all_eq_true.mpr (fun e he => sendResponse_mem r e he)

/-- Claim C9 (confirmed): when the per-attempt timer fires, the core sends
`AUTHENTICATE *` immediately, calls `finish_cap`, emits `sasl failure`
with reason exactly `The authentication timed out`, clears the timer
handle and arms no new timer; the timeout delay is 20000 ms. -/
theorem sasl_c9_timeout (s : Server) (fresh : Nat) (h : s.sasl_timeout ≠ 0) :
    handleEvent s fresh .timerFired =
      ({ s with sasl_timeout := 0 },
       [Effect.sendNow (authLine (str2bytes "*")), Effect.finishCap,
        Effect.emitFailure (str2bytes "The authentication timed out")]) ∧
    SASL_TIMEOUT = 20000 := by
  exact ⟨by simp [handleEvent, h, sasl_timeout_cb], rfl⟩

/-- Witness for C9: a pending timer (handle 5) fires. -/
theorem sasl_c9_timeout_witness :
    handleEvent { connrec := aliceConn, sasl_buffer := none, sasl_timeout := 5 } 9 .timerFired =
      ({ connrec := aliceConn, sasl_buffer := none, sasl_timeout := 0 },
       [Effect.sendNow (authLine (str2bytes "*")), Effect.finishCap,
        Effect.emitFailure (str2bytes "The authentication timed out")]) ∧
    SASL_TIMEOUT = 20000 :=
  sasl_c9_timeout { connrec := aliceConn, sasl_buffer := none, sasl_timeout := 5 } 9
    (by decide)

/-- Claim C8 (confirmed): for mechanism PLAIN the completed-step response
is `username ++ 0x00 ++ username ++ 0x00 ++ password`, the server payload
is ignored, and for `alice`/`hunter2` the single outbound line is
`AUTHENTICATE YWxpY2UAYWxpY2UAaHVudGVyMg==` (queued path) with no
following `AUTHENTICATE +`, the encoded length being 28, not a multiple
of 400. -/
theorem sasl_c8_plain (s : Server) (d d' : List Nat)
    (h : s.connrec.sasl_mechanism = .plain) :
    sasl_step_complete s d =
      sasl_send_response_eff (some
        (s.connrec.sasl_username ++ [0] ++ s.connrec.sasl_username ++ [0] ++
         s.connrec.sasl_password)) ∧
    sasl_step_complete s d = sasl_step_complete s d' ∧
    sasl_step_complete aliceServer [] =
      [Effect.sendCmdv (authLine (str2bytes "YWxpY2UAYWxpY2UAaHVudGVyMg=="))] ∧
    (str2bytes "YWxpY2UAYWxpY2UAaHVudGVyMg==").length = 28 ∧ ¬(28 % 400 = 0) := by
  refine ⟨by simp [sasl_step_complete, h], rfl, by decide, by decide, by decide⟩

/-- Witness for C8 at the fixture session. -/
theorem sasl_c8_plain_witness :
    sasl_step_complete aliceServer [] =
      sasl_send_response_eff (some
        (aliceServer.connrec.sasl_username ++ [0] ++ aliceServer.connrec.sasl_username ++
         [0] ++ aliceServer.connrec.sasl_password)) ∧
    sasl_step_complete aliceServer [] = sasl_step_complete aliceServer [] ∧
    sasl_step_complete aliceServer [] =
      [Effect.sendCmdv (authLine (str2bytes "YWxpY2UAYWxpY2UAaHVudGVyMg=="))] ∧
    (str2bytes "YWxpY2UAYWxpY2UAaHVudGVyMg==").length = 28 ∧ ¬(28 % 400 = 0) :=
  sasl_c8_plain aliceServer [] [] (by decide)

/-- Claim C10 (confirmed): a fragment strictly longer than 400 bytes whose
`enc_req` stays within the limit is treated as final — the accumulated
buffer is decoded at once and returned complete — and only a fragment of
length exactly 400 is ever treated as non-final. -/
theorem sasl_c10_long_fragment :
    (∀ (buf : Option (List Nat)) (f : List Nat), 400 < f.length →
      (encReqOf buf f).length ≤ 8192 →
      sasl_reassemble_incoming buf f = .complete (b64decode (encReqOf buf f))) ∧
    (∀ (buf : Option (List Nat)) (f x : List Nat),
      sasl_reassemble_incoming buf f = .more x → f.length = 400) := by
  constructor
  · intro buf f h1 h2
    exact reassemble_complete buf f (by omega) (by omega)
  · intro buf f x h
    exact (reassemble_more_inv buf f x h).2.2

/-- Witness for C10: a 401-byte fragment completes immediately. -/
theorem sasl_c10_long_fragment_witness :
    sasl_reassemble_incoming none (List.replicate 401 65) =
      .complete (b64decode (encReqOf none (List.replicate 401 65))) :=
  sasl_c10_long_fragment.1 none (List.replicate 401 65)
    (by simp only [List.length_replicate]; omega)
    (by simp only [encReqOf, List.length_replicate]; omega)

/-! ### Handler-level helper lemmas -/

/-- `cancelTimer` leaves the buffer alone. -/
theorem cancelTimer_buffer (s : Server) : (cancelTimer s).1.sasl_buffer = s.sasl_buffer := by
  unfold cancelTimer
  split_ifs <;> rfl

/-- `cancelTimer` leaves the connection record alone. -/
theorem cancelTimer_connrec (s : Server) : (cancelTimer s).1.connrec = s.connrec := by
  unfold cancelTimer
  split_ifs <;> rfl

/-- After `cancelTimer` no timer is pending. -/
theorem cancelTimer_timeout (s : Server) : (cancelTimer s).1.sasl_timeout = 0 := by
  unfold cancelTimer
  split_ifs with h
  · rfl
  · simpa using h

/-- `cancelTimer` emits no outcome and finishes nothing. -/
theorem cancelTimer_counts (s : Server) :
    countFC (cancelTimer s).2 = 0 ∧ countSucc (cancelTimer s).2 = 0 ∧
      countFail (cancelTimer s).2 = 0 := by
  unfold cancelTimer
  split_ifs <;>
    simp [countFC, countSucc, countFail, List.countP_cons, List.countP_nil,
      isFinishCap, isSuccessE, isFailureE]

/-- Every effect of `sasl_step_complete` is an `irc_send_cmdv` send. -/
theorem stepComplete_mem (s : Server) (d : List Nat) (e : Effect)
    (h : e ∈ sasl_step_complete s d) : isSendCmdvE e = true := by
  unfold sasl_step_complete at h
  cases hm : s.connrec.sasl_mechanism <;> rw [hm] at h <;> exact sendResponse_mem _ e h

/-- `sasl_step_complete` never finishes CAP or emits outcomes. -/
theorem stepComplete_counts (s : Server) (d : List Nat) :
    countFC (sasl_step_complete s d) = 0 ∧ countSucc (sasl_step_complete s d) = 0 ∧
      countFail (sasl_step_complete s d) = 0 := by
  refine ⟨?_, ?_, ?_⟩ <;>
    exact List.countP_eq_zero.mpr (fun e he => by
      have := stepComplete_mem s d e he
      cases e <;> simp_all [isSendCmdvE, isFinishCap, isSuccessE, isFailureE])

/-- `countFC` distributes over append. -/
theorem countFC_append (l1 l2 : List Effect) :
    countFC (l1 ++ l2) = countFC l1 + countFC l2 := List.countP_append _ _ _

/-- `countSucc` distributes over append. -/
theorem countSucc_append (l1 l2 : List Effect) :
    countSucc (l1 ++ l2) = countSucc l1 + countSucc l2 := List.countP_append _ _ _

/-- `countFail` distributes over append. -/
theorem countFail_append (l1 l2 : List Effect) :
    countFail (l1 ++ l2) = countFail l1 + countFail l2 := List.countP_append _ _ _

/-- Outcome counts of one `sasl_step` call: it reports (failure + CAP
finish) exactly when the reassembler oversizes, else nothing. -/
theorem step_counts (s : Server) (d : List Nat) (fresh : Nat) :
    countFC (sasl_step_h s d fresh).2 =
      (if (encReqOf s.sasl_buffer d).length > 8192 then 1 else 0) ∧
    countSucc (sasl_step_h s d fresh).2 = 0 ∧
    countFail (sasl_step_h s d fresh).2 =
      (if (encReqOf s.sasl_buffer d).length > 8192 then 1 else 0) := by
  obtain ⟨hc1, hc2, hc3⟩ := cancelTimer_counts s
  have hbuf := cancelTimer_buffer s
  cases hres : sasl_reassemble_incoming (cancelTimer s).1.sasl_buffer d with
  | fail =>
      have hov : (encReqOf s.sasl_buffer d).length > 8192 := by
        rw [← hbuf]
        exact (reassemble_fail_iff _ _).mp hres
      simp only [sasl_step_h, hres, if_pos hov]
      refine ⟨?_, ?_, ?_⟩
      · rw [countFC_append, hc1]
        rfl
      · rw [countSucc_append, hc2]
        rfl
      · rw [countFail_append, hc3]
        rfl
  | more b =>
      have hov : ¬(encReqOf s.sasl_buffer d).length > 8192 := by
        rw [← hbuf]
        have h1 := (reassemble_more_inv _ _ _ hres).1
        have h2 := (reassemble_more_inv _ _ _ hres).2.1
        rw [h1] at h2
        omega
      simp only [sasl_step_h, hres, if_neg hov]
      refine ⟨?_, ?_, ?_⟩
      · rw [countFC_append, hc1]
        rfl
      · rw [countSucc_append, hc2]
        rfl
      · rw [countFail_append, hc3]
        rfl
  | complete dd =>
      have hov : ¬(encReqOf s.sasl_buffer d).length > 8192 := by
        rw [← hbuf]
        have := reassemble_complete_inv _ _ _ hres
        omega
      obtain ⟨hs1, hs2, hs3⟩ := stepComplete_counts (cancelTimer s).1 dd
      simp only [sasl_step_h, hres, if_neg hov]
      refine ⟨?_, ?_, ?_⟩
      · rw [countFC_append, countFC_append, hc1, hs1]
        rfl
      · rw [countSucc_append, countSucc_append, hc2, hs2]
        rfl
      · rw [countFail_append, countFail_append, hc3, hs3]
        rfl

/-- Claim C5 (counterexample): a completed buffer that is not valid RFC
4648 base64 does NOT make the Reassembler fail.  Fragment `!!!` (bytes
33,33,33) is not `+` and not valid base64, yet reassembly completes with
the empty payload (GLib's decoder skips non-alphabet characters and never
reports an error), and handling the fragment emits no failure and calls
no `finish_cap`. -/
theorem sasl_c5_counterexample :
    validBase64 [33, 33, 33] = false ∧
    [33, 33, 33] ≠ [43] ∧
    sasl_reassemble_incoming none [33, 33, 33] = .complete [] ∧
    sasl_reassemble_incoming none [33, 33, 33] ≠ .fail ∧
    countFail (handleEvent aliceServer 1 (.authenticate [33, 33, 33])).2 = 0 ∧
    countFC (handleEvent aliceServer 1 (.authenticate [33, 33, 33])).2 = 0 := by
  decide

/-- Claim C5 (amended): the Reassembler returns failure exactly when the
accumulated `enc_req` exceeds `MAX_ENCODED`; base64 decoding itself never
fails — any completed within-limit buffer yields a decoded payload
(possibly empty) — and the `sasl failure` with reason `The server sent an
invalid payload` is emitted by `event authenticate` handling exactly in
the oversize case. -/
theorem sasl_c5_amended :
    (∀ (buf : Option (List Nat)) (f : List Nat),
      (sasl_reassemble_incoming buf f = .fail ↔ (encReqOf buf f).length > 8192)) ∧
    (∀ (buf : Option (List Nat)) (f : List Nat),
      (encReqOf buf f).length ≤ 8192 → f.length ≠ 400 →
      sasl_reassemble_incoming buf f = .complete (b64decode (encReqOf buf f))) ∧
    (∀ (s : Server) (d : List Nat) (fresh : Nat),
      countFail (handleEvent s fresh (.authenticate d)).2 =
        if (encReqOf s.sasl_buffer d).length > 8192 then 1 else 0) := by
  refine ⟨reassemble_fail_iff, ?_, ?_⟩
  · intro buf f h1 h2
    exact reassemble_complete buf f (by omega) h2
  · intro s d fresh
    exact (step_counts s d fresh).2.2

/-- Witness for C5 (amended) at the `!!!` fragment. -/
theorem sasl_c5_amended_witness :
    sasl_reassemble_incoming none [33, 33, 33] =
      .complete (b64decode (encReqOf none [33, 33, 33])) :=
  sasl_c5_amended.2.1 none [33, 33, 33] (by decide) (by decide)

/-- A 400-byte chunk of `A` is not the `+` fragment. -/
theorem replicate400_ne_plus : List.replicate 400 (65 : Nat) ≠ [43] := by
  intro hh
  have h1 : (List.replicate 400 (65 : Nat)).length = 400 := List.length_replicate _ _
  rw [hh] at h1
  simp only [List.length_cons, List.length_nil] at h1
  omega

/-- Feeding `k` further 400-byte chunks of `A` onto a buffer of `m` bytes
of `A` keeps accumulating while within the limit. -/
theorem feedRepAux (k : Nat) : ∀ m : Nat, 0 < m → m + 400 * k ≤ 8192 →
    feedAll (some (List.replicate m 65)) (List.replicate k (List.replicate 400 65)) =
      .pending (some (List.replicate (m + 400 * k) 65)) := by
  induction k with
  | zero =>
      intro m h1 h2
      simp only [List.replicate, feedAll, Nat.mul_zero, Nat.add_zero]
  | succ kk ih =>
      intro m h1 h2
      rw [List.replicate_succ]
      have henc : encReqOf (some (List.replicate m (65 : Nat))) (List.replicate 400 65) =
          List.replicate (m + 400) 65 := by
        rw [encReq_getD _ _ replicate400_ne_plus]
        simp only [Option.getD_some]
        rw [← List.replicate_add]
      have hmore := reassemble_more (some (List.replicate m (65 : Nat)))
        (List.replicate 400 65)
        (by rw [henc]; simp only [List.length_replicate]; omega)
        (List.length_replicate _ _)
      simp only [feedAll, hmore, henc]
      rw [ih (m + 400) (by omega) (by omega)]
      have harith : m + 400 + 400 * kk = m + 400 * (kk + 1) := by ring
      rw [harith]

/-- One-step unfolding of `feedAll` on a cons. -/
theorem feedAll_cons (buf : Option (List Nat)) (f : List Nat) (fs : List (List Nat)) :
    feedAll buf (f :: fs) =
      match sasl_reassemble_incoming buf f with
      | .fail => .fail
      | .more b => feedAll (some b) fs
      | .complete d => .done d fs := rfl

/-- Twenty 400-byte chunks reassemble into a pending 8000-byte buffer. -/
theorem feed20 :
    feedAll none (List.replicate 20 (List.replicate 400 65)) =
      .pending (some (List.replicate 8000 65)) := by
  have h20 : (20 : Nat) = 19 + 1 := rfl
  rw [h20, List.replicate_succ]
  have hmore := reassemble_more none (List.replicate 400 (65 : Nat))
    (by simp only [encReqOf, List.length_replicate]; omega)
    (List.length_replicate _ _)
  rw [feedAll_cons, hmore]
  show feedAll (some (List.replicate 400 65)) (List.replicate 19 (List.replicate 400 65)) =
    .pending (some (List.replicate 8000 65))
  have hrep := feedRepAux 19 400 (by omega) (by omega)
  have h8000 : 400 + 400 * 19 = 8000 := by norm_num
  rw [h8000] at hrep
  exact hrep

/-- The 21st 400-byte chunk (total 8400 > 8192) makes reassembly fail. -/
theorem oversize21 :
    sasl_reassemble_incoming (some (List.replicate 8000 65)) (List.replicate 400 65) =
      .fail := by
  apply (reassemble_fail_iff _ _).mpr
  rw [encReq_getD _ _ replicate400_ne_plus]
  simp only [Option.getD_some, List.length_append, List.length_replicate]
  omega

/-- Claim C6 (confirmed): whenever an inbound fragment pushes `enc_req`
strictly past `MAX_ENCODED = 8192`, handling the fragment sends
`AUTHENTICATE *` (immediate path), calls `finish_cap`, emits `sasl
failure` with reason `The server sent an invalid payload`, and clears
buffer and timer; for a stream of 400-byte chunks the failure happens on
the 21st chunk (8000 + 400 = 8400 > 8192); and the stored buffer's
length never exceeds `MAX_ENCODED` in any reachable state. -/
theorem sasl_c6_oversize :
    (∀ (s : Server) (d : List Nat) (fresh : Nat),
      (encReqOf s.sasl_buffer d).length > 8192 →
      (handleEvent s fresh (.authenticate d)).2 =
        (cancelTimer s).2 ++
          [Effect.sendNow (authLine (str2bytes "*")), Effect.finishCap,
           Effect.emitFailure (str2bytes "The server sent an invalid payload")] ∧
      (handleEvent s fresh (.authenticate d)).1 =
        { s with sasl_buffer := none, sasl_timeout := 0 }) ∧
    (feedAll none (List.replicate 20 (List.replicate 400 65)) =
        .pending (some (List.replicate 8000 65)) ∧
      sasl_reassemble_incoming (some (List.replicate 8000 65)) (List.replicate 400 65) =
        .fail ∧
      (8000 : Nat) + 400 = 8400 ∧ (8400 : Nat) > 8192) ∧
    (∀ (s : Server) (fresh : Nat) (e : Event),
      bufLen s ≤ 8192 → bufLen (handleEvent s fresh e).1 ≤ 8192) := by
  refine ⟨?_, ⟨feed20, oversize21, by norm_num, by norm_num⟩, ?_⟩
  · intro s d fresh hov
    have hfail : sasl_reassemble_incoming (cancelTimer s).1.sasl_buffer d = .fail := by
      rw [cancelTimer_buffer]
      exact (reassemble_fail_iff _ _).mpr hov
    constructor
    · simp only [handleEvent, sasl_step_h, hfail, sasl_step_fail_h]
    · cases s with
      | mk conn buf t =>
          simp only [handleEvent, sasl_step_h, hfail, sasl_step_fail_h]
          unfold cancelTimer
          split_ifs <;> rfl
  · intro s fresh e h
    cases e with
    | capAck => simpa [handleEvent, sasl_start_h, bufLen] using h
    | authenticate d =>
        cases hres : sasl_reassemble_incoming (cancelTimer s).1.sasl_buffer d with
        | fail => simp [handleEvent, sasl_step_h, hres, sasl_step_fail_h, bufLen]
        | more b =>
            have hb := (reassemble_more_inv _ _ _ hres).2.1
            simpa [handleEvent, sasl_step_h, hres, bufLen] using hb
        | complete dd => simp [handleEvent, sasl_step_h, hres, bufLen]
    | num902 d2 => simpa [handleEvent, sasl_fail_h, bufLen, cancelTimer_buffer] using h
    | num903 => simpa [handleEvent, sasl_success_h, bufLen, cancelTimer_buffer] using h
    | num904 d2 => simpa [handleEvent, sasl_fail_h, bufLen, cancelTimer_buffer] using h
    | num905 d2 => simpa [handleEvent, sasl_fail_h, bufLen, cancelTimer_buffer] using h
    | num906 d2 => simpa [handleEvent, sasl_fail_h, bufLen, cancelTimer_buffer] using h
    | num907 => simpa [handleEvent, sasl_already_h, bufLen, cancelTimer_buffer] using h
    | timerFired =>
        by_cases ht : s.sasl_timeout ≠ 0
        · simpa [handleEvent, ht, sasl_timeout_cb, bufLen] using h
        · simpa [handleEvent, ht, bufLen] using h
    | disconnected =>
        simpa [handleEvent, sasl_disconnected_h, bufLen, cancelTimer_buffer] using h

/-- Witness for C6: the 21st chunk on an 8000-byte buffer, and the buffer
invariant at the fresh fixture server. -/
theorem sasl_c6_oversize_witness :
    ((handleEvent bigBufServer 9 (.authenticate (List.replicate 400 65))).2 =
      (cancelTimer bigBufServer).2 ++
        [Effect.sendNow (authLine (str2bytes "*")), Effect.finishCap,
         Effect.emitFailure (str2bytes "The server sent an invalid payload")] ∧
      (handleEvent bigBufServer 9 (.authenticate (List.replicate 400 65))).1 =
        { bigBufServer with sasl_buffer := none, sasl_timeout := 0 }) ∧
    bufLen (handleEvent aliceServer 1 .capAck).1 ≤ 8192 := by
  constructor
  · exact sasl_c6_oversize.1 bigBufServer (List.replicate 400 65) 9
      (by
        have hbuf : bigBufServer.sasl_buffer = some (List.replicate 8000 65) := rfl
        rw [hbuf, encReq_getD _ _ replicate400_ne_plus]
        simp only [Option.getD_some, List.length_append, List.length_replicate]
        omega)
  · exact sasl_c6_oversize.2.2 aliceServer 1 .capAck (by decide)

/-- Claim C2 (counterexample): `Disconnected` does NOT discard the
buffered fragments.  On a server holding a one-byte buffer with a pending
timer, `sasl_disconnected` cancels the timer but leaves the buffer in
place; a terminal numeric (`sasl_fail`) leaves it in place as well. -/
theorem sasl_c2_counterexample :
    (sasl_disconnected_h bufServer).1.sasl_buffer = some [65] ∧
    (sasl_disconnected_h bufServer).1.sasl_buffer ≠ none ∧
    (sasl_disconnected_h bufServer).2 = [Effect.timerRemove 5] ∧
    (sasl_fail_h bufServer (str2bytes "* :Invalid credentials")).1.sasl_buffer =
      some [65] := by
  decide

/-- Claim C2 (amended): after any terminal transition the timer handle is
cleared (`sasl_timeout = 0`), and `Disconnected` cancels any pending
timer; but the numeric, timeout and disconnect transitions all leave the
inbound buffer untouched — only the reassembly paths (completion or
oversize failure inside `event authenticate` handling) clear it. -/
theorem sasl_c2_amended (s : Server) (d : List Nat) (fresh : Nat) :
    ((sasl_disconnected_h s).1.sasl_timeout = 0 ∧
     (sasl_disconnected_h s).1.sasl_buffer = s.sasl_buffer) ∧
    ((sasl_fail_h s d).1.sasl_timeout = 0 ∧
     (sasl_fail_h s d).1.sasl_buffer = s.sasl_buffer) ∧
    ((sasl_success_h s).1.sasl_timeout = 0 ∧
     (sasl_success_h s).1.sasl_buffer = s.sasl_buffer) ∧
    ((sasl_already_h s).1.sasl_timeout = 0 ∧
     (sasl_already_h s).1.sasl_buffer = s.sasl_buffer) ∧
    ((sasl_timeout_cb s).1.sasl_timeout = 0 ∧
     (sasl_timeout_cb s).1.sasl_buffer = s.sasl_buffer) ∧
    ((encReqOf s.sasl_buffer d).length > 8192 →
      (handleEvent s fresh (.authenticate d)).1 =
        { s with sasl_buffer := none, sasl_timeout := 0 }) := by
  refine ⟨⟨cancelTimer_timeout s, cancelTimer_buffer s⟩,
    ⟨cancelTimer_timeout s, cancelTimer_buffer s⟩,
    ⟨cancelTimer_timeout s, cancelTimer_buffer s⟩,
    ⟨cancelTimer_timeout s, cancelTimer_buffer s⟩, ⟨rfl, rfl⟩, ?_⟩
  intro hov
  have hfail : sasl_reassemble_incoming (cancelTimer s).1.sasl_buffer d = .fail := by
    rw [cancelTimer_buffer]
    exact (reassemble_fail_iff _ _).mpr hov
  cases s with
  | mk conn buf t =>
      simp only [handleEvent, sasl_step_h, hfail, sasl_step_fail_h]
      unfold cancelTimer
      split_ifs <;> rfl

/-- Witness for C2 (amended) at a concrete buffered, timer-armed server. -/
theorem sasl_c2_amended_witness :
    ((sasl_disconnected_h bufServer).1.sasl_timeout = 0 ∧
     (sasl_disconnected_h bufServer).1.sasl_buffer = bufServer.sasl_buffer) ∧
    ((sasl_fail_h bufServer []).1.sasl_timeout = 0 ∧
     (sasl_fail_h bufServer []).1.sasl_buffer = bufServer.sasl_buffer) ∧
    ((sasl_success_h bufServer).1.sasl_timeout = 0 ∧
     (sasl_success_h bufServer).1.sasl_buffer = bufServer.sasl_buffer) ∧
    ((sasl_already_h bufServer).1.sasl_timeout = 0 ∧
     (sasl_already_h bufServer).1.sasl_buffer = bufServer.sasl_buffer) ∧
    ((sasl_timeout_cb bufServer).1.sasl_timeout = 0 ∧
     (sasl_timeout_cb bufServer).1.sasl_buffer = bufServer.sasl_buffer) ∧
    ((encReqOf bufServer.sasl_buffer []).length > 8192 →
      (handleEvent bufServer 9 (.authenticate [])).1 =
        { bufServer with sasl_buffer := none, sasl_timeout := 0 }) :=
  sasl_c2_amended bufServer [] 9

/-- Claim C1 (counterexample): `finish_cap` is NOT invoked exactly once
per lifecycle: the core keeps no terminal flag, so after success (903) a
subsequent failure numeric (904) is processed again.  The lifecycle
`capAck, 903, 904, disconnect` invokes `finish_cap` twice and emits both
a success and a failure. -/
theorem sasl_c1_counterexample :
    countFC (runEvents aliceServer 1
        [Event.capAck, Event.num903, Event.num904 (str2bytes "* :Invalid credentials"),
         Event.disconnected]).2 = 2 ∧
    countSucc (runEvents aliceServer 1
        [Event.capAck, Event.num903, Event.num904 (str2bytes "* :Invalid credentials"),
         Event.disconnected]).2 = 1 ∧
    countFail (runEvents aliceServer 1
        [Event.capAck, Event.num903, Event.num904 (str2bytes "* :Invalid credentials"),
         Event.disconnected]).2 = 1 := by
  decide

/-- Claim C1 (amended): per delivered event — not per lifecycle — the
handlers report exactly once: every terminal-triggering event (a numeric
902–907, a timer fire with a pending timer, or an oversizing
`AUTHENTICATE` fragment) produces exactly one `finish_cap` and exactly
one outcome emission (success for 903/907, failure otherwise), and every
other event (including `Disconnected`) produces none; the core does not
suppress events arriving after a terminal transition: they are handled
anew by the same rules. -/
theorem sasl_c1_per_event (s : Server) (fresh : Nat) (e : Event) :
    countFC (handleEvent s fresh e).2 = (expectedOutcome s e).1 ∧
    countSucc (handleEvent s fresh e).2 = (expectedOutcome s e).2.1 ∧
    countFail (handleEvent s fresh e).2 = (expectedOutcome s e).2.2 := by
  obtain ⟨hc1, hc2, hc3⟩ := cancelTimer_counts s
  cases e with
  | capAck =>
      refine ⟨?_, ?_, ?_⟩ <;> rfl
  | authenticate d =>
      obtain ⟨h1, h2, h3⟩ := step_counts s d fresh
      by_cases hov : (encReqOf s.sasl_buffer d).length > 8192
      · rw [if_pos hov] at h1 h3
        simp only [handleEvent, expectedOutcome, AUTHENTICATE_MAX_SIZE, if_pos hov]
        exact ⟨h1, h2, h3⟩
      · rw [if_neg hov] at h1 h3
        simp only [handleEvent, expectedOutcome, AUTHENTICATE_MAX_SIZE, if_neg hov]
        exact ⟨h1, h2, h3⟩
  | num902 d2 =>
      refine ⟨?_, ?_, ?_⟩ <;>
        simp only [handleEvent, sasl_fail_h, expectedOutcome] <;>
        first
        | rw [countFC_append, hc1]; rfl
        | rw [countSucc_append, hc2]; rfl
        | rw [countFail_append, hc3]; rfl
  | num903 =>
      refine ⟨?_, ?_, ?_⟩ <;>
        simp only [handleEvent, sasl_success_h, expectedOutcome] <;>
        first
        | rw [countFC_append, hc1]; rfl
        | rw [countSucc_append, hc2]; rfl
        | rw [countFail_append, hc3]; rfl
  | num904 d2 =>
      refine ⟨?_, ?_, ?_⟩ <;>
        simp only [handleEvent, sasl_fail_h, expectedOutcome] <;>
        first
        | rw [countFC_append, hc1]; rfl
        | rw [countSucc_append, hc2]; rfl
        | rw [countFail_append, hc3]; rfl
  | num905 d2 =>
      refine ⟨?_, ?_, ?_⟩ <;>
        simp only [handleEvent, sasl_fail_h, expectedOutcome] <;>
        first
        | rw [countFC_append, hc1]; rfl
        | rw [countSucc_append, hc2]; rfl
        | rw [countFail_append, hc3]; rfl
  | num906 d2 =>
      refine ⟨?_, ?_, ?_⟩ <;>
        simp only [handleEvent, sasl_fail_h, expectedOutcome] <;>
        first
        | rw [countFC_append, hc1]; rfl
        | rw [countSucc_append, hc2]; rfl
        | rw [countFail_append, hc3]; rfl
  | num907 =>
      refine ⟨?_, ?_, ?_⟩ <;>
        simp only [handleEvent, sasl_already_h, expectedOutcome] <;>
        first
        | rw [countFC_append, hc1]; rfl
        | rw [countSucc_append, hc2]; rfl
        | rw [countFail_append, hc3]; rfl
  | timerFired =>
      by_cases ht : s.sasl_timeout ≠ 0
      · refine ⟨?_, ?_, ?_⟩ <;> simp [handleEvent, ht, sasl_timeout_cb, expectedOutcome,
          countFC, countSucc, countFail, List.countP_cons, List.countP_nil,
          isFinishCap, isSuccessE, isFailureE]
      · refine ⟨?_, ?_, ?_⟩ <;> simp [handleEvent, ht, expectedOutcome,
          countFC, countSucc, countFail, List.countP_nil]
  | disconnected =>
      refine ⟨?_, ?_, ?_⟩ <;>
        simp only [handleEvent, sasl_disconnected_h, expectedOutcome] <;>
        first
        | exact hc1
        | exact hc2
        | exact hc3
